import Mathlib

/-!
# Verification of the Intel flash image decoder (insomniacslk/uefi)

Shallow embedding of the Go package `uefi` (signature location, fixed-record
little-endian decoding, bit-field extraction, firmware-volume discovery) and
proofs about it.  Byte buffers are modelled as `List Nat`, each element a byte
value (`< 256` where a claim needs it).  A Go function that can either return
an error or panic at runtime (out-of-bounds slice indexing) is modelled as a
function into `Except GoErr _`, with the dedicated error `GoErr.oob` standing
for a runtime panic — a panic is *not* a returned error, and the proofs below
keep the distinction visible.
-/

set_option maxRecDepth 40000

namespace Uefi

/-- Decidable equality of `Except` results, used to evaluate the decoders on
concrete buffers. -/
instance {ε α : Type} [DecidableEq ε] [DecidableEq α] : DecidableEq (Except ε α) :=
  fun x y =>
    match x, y with
    | .ok a, .ok b =>
      if h : a = b then .isTrue (by rw [h]) else .isFalse (by simp [h])
    | .error e, .error f =>
      if h : e = f then .isTrue (by rw [h]) else .isFalse (by simp [h])
    | .ok _, .error _ => .isFalse (by simp)
    | .error _, .ok _ => .isFalse (by simp)

/-- Outcomes of a failing decode step.  The first five model the error values
the Go code returns (`ErrImageTooSmall`, `ErrInvalidImageSize`,
`ErrFlashSignatureNotFound`, the ad-hoc error of `NewFlashMasterSection`, and
the `io.EOF`/`io.ErrUnexpectedEOF` errors produced by `binary.Read` when the
input is exhausted).  `oob` models a Go runtime panic caused by an
out-of-bounds or negative slice index: it is not a value the code returns. -/
inductive GoErr where
  | imageTooSmall
  | invalidImageSize
  | flashSignatureNotFound
  | masterSectionTooSmall
  | truncatedData
  | oob
deriving DecidableEq

/-- Little-endian 16-bit read of bytes `l[0], l[1]` (missing bytes read as 0,
matching use sites where bounds were already established). -/
def readU16 (l : List Nat) : Nat :=
  l.getD 0 0 + 256 * l.getD 1 0

/-- Little-endian 32-bit value of the four bytes `a, b, c, d`. -/
def readU32 (a b c d : Nat) : Nat :=
  a + 256 * b + 65536 * c + 16777216 * d

/-- Little-endian 64-bit read of bytes `l[0] … l[7]`. -/
def readU64 (l : List Nat) : Nat :=
  l.getD 0 0 + 256 * l.getD 1 0 + 65536 * l.getD 2 0 + 16777216 * l.getD 3 0 +
    4294967296 * l.getD 4 0 + 1099511627776 * l.getD 5 0 +
    281474976710656 * l.getD 6 0 + 72057594037927936 * l.getD 7 0

/-- The Intel flash descriptor signature `{0x5A, 0xA5, 0xF0, 0x0F}`
(`FlashSignature` in `flash.go`). -/
def FlashSignature : List Nat := [0x5a, 0xa5, 0xf0, 0x0f]

/-- The firmware volume signature, the ASCII bytes of `"_FVH"`. -/
def fvSignature : List Nat := [0x5f, 0x46, 0x56, 0x48]

/-- The scanning loop of `FindFirmwareVolumeOffset`, expressed over the tail
`t = data.drop offset` of the buffer.  One Go iteration with `offset <
len(data)` (`t ≠ []`) slices `data[offset:offset+4]` — a runtime panic when
fewer than 4 bytes remain — compares it with `"_FVH"` and, on a mismatch,
advances by 8 bytes. -/
def fvScan : List Nat → Nat → Except GoErr Int
  | a :: b :: c :: d :: rest, offset =>
    if [a, b, c, d] = fvSignature then .ok ((offset : Int) - 40)
    else
      match rest with
      | _ :: _ :: _ :: _ :: rest2 => fvScan rest2 (offset + 8)
      | _ => .ok (-1)
  | [], _ => .ok (-1)
  | _, _ => .error .oob

/-- `FindFirmwareVolumeOffset` from `flash.go` (the firmware-volume signature
scanner): buffers shorter than 32 bytes yield `-1`; otherwise the loop scans
offsets `32, 40, 48, …` and on the first `"_FVH"` match at `p` returns
`p - 40`. -/
def FindFirmwareVolumeOffset (data : List Nat) : Except GoErr Int :=
  if data.length < 32 then .ok (-1)
  else fvScan (data.drop 32) 32

/-- `FlashImage.FindSignature` from `flash.go`, as a function of the raw
buffer: compares `buf[16:20]` with the flash signature (PCH layout) and then
`buf[0:4]` (legacy layout).  The first slice is taken unconditionally, so a
buffer shorter than 20 bytes panics. -/
def FindSignature (buf : List Nat) : Except GoErr Int :=
  if buf.length < 20 then .error .oob
  else if (buf.drop 16).take 4 = FlashSignature then .ok 20
  else if buf.take 4 = FlashSignature then .ok 4
  else .ok (-1)

/-- `FlashParamsSize` from `flashparams.go`. -/
def FlashParamsSize : Nat := 4

/-- `FlashParams` is a raw 4-byte record (`[]byte` in Go). -/
abbrev FlashParams := List Nat

/-- Accessor `FirstChipDensity`: `p[0] & 0x0f`. -/
def FirstChipDensity (p : FlashParams) : Nat := p.getD 0 0 &&& 0x0f

/-- Accessor `SecondChipDensity`: `(p[0] >> 4) & 0x0f`. -/
def SecondChipDensity (p : FlashParams) : Nat := (p.getD 0 0 >>> 4) &&& 0x0f

/-- Accessor `ReadClockFrequency`: `(p[2] >> 1) & 0x07`. -/
def ReadClockFrequency (p : FlashParams) : Nat := (p.getD 2 0 >>> 1) &&& 0x07

/-- Accessor `FastReadEnabled`: `(p[2] >> 4) & 0x01`. -/
def FastReadEnabled (p : FlashParams) : Nat := (p.getD 2 0 >>> 4) &&& 0x01

/-- Accessor `FastReadFrequency`: `(p[2] >> 5) & 0x07`. -/
def FastReadFrequency (p : FlashParams) : Nat := (p.getD 2 0 >>> 5) &&& 0x07

/-- Accessor `FlashWriteFrequency`: `p[3] & 0x07`. -/
def FlashWriteFrequency (p : FlashParams) : Nat := p.getD 3 0 &&& 0x07

/-- Accessor `FlashReadStatusFrequency`: `(p[3] >> 3) & 0x07`. -/
def FlashReadStatusFrequency (p : FlashParams) : Nat := (p.getD 3 0 >>> 3) &&& 0x07

/-- Accessor `DualOutputFastReadSupported`: `p[3] >> 7`. -/
def DualOutputFastReadSupported (p : FlashParams) : Nat := p.getD 3 0 >>> 7

/-- `NewFlashParams` from `flashparams.go`: requires the input to be exactly
4 bytes long, else `ErrInvalidImageSize`; the record keeps the raw bytes. -/
def NewFlashParams (buf : List Nat) : Except GoErr FlashParams :=
  if buf.length ≠ FlashParamsSize then .error .invalidImageSize
  else .ok buf

/-- `FirmwareVolumeFixedHeaderSize` from `flash.go`. -/
def FirmwareVolumeFixedHeaderSize : Nat := 56

/-- `FirmwareVolumeMinSize` from `flash.go`: the fixed header plus the
8-byte null block that terminates the block list. -/
def FirmwareVolumeMinSize : Nat := FirmwareVolumeFixedHeaderSize + 8

/-- `Block` from `flash.go`: count and size of a run of firmware volume
blocks (each a `uint32` in the binary format). -/
structure Block where
  Count : Nat
  Size : Nat
deriving DecidableEq

/-- `FirmwareVolumeFixedHeader` from `flash.go`, with the byte layout used by
`binary.Read` (little-endian, no padding): `Zeros` at bytes 0–15,
`FileSystemGUID` at 16–31, `Length` (u64) at 32–39, `Signature` (u32) at
40–43, `AttrMask` at 44, `HeaderLen` (u16) at 45–46, `Checksum` (u16) at
47–48, `Reserved` at 49–51, `Revision` at 52, `Unused` at 53–55. -/
structure FirmwareVolumeFixedHeader where
  Zeros : List Nat
  FileSystemGUID : List Nat
  Length : Nat
  Signature : Nat
  AttrMask : Nat
  HeaderLen : Nat
  Checksum : Nat
  Reserved : List Nat
  Revision : Nat
  Unused : List Nat
deriving DecidableEq

/-- `FirmwareVolume` from `flash.go`: the fixed header plus the decoded
block list (terminating null block excluded). -/
structure FirmwareVolume extends FirmwareVolumeFixedHeader where
  Blocks : List Block
deriving DecidableEq

/-- The fixed-header decode performed by `binary.Read` inside
`NewFirmwareVolume`: each field read at its byte offset. -/
def decodeFVHeader (data : List Nat) : FirmwareVolumeFixedHeader where
  Zeros := data.take 16
  FileSystemGUID := (data.drop 16).take 16
  Length := readU64 (data.drop 32)
  Signature := readU32 (data.getD 40 0) (data.getD 41 0) (data.getD 42 0) (data.getD 43 0)
  AttrMask := data.getD 44 0
  HeaderLen := readU16 (data.drop 45)
  Checksum := readU16 (data.drop 47)
  Reserved := ((data.drop 49).take 3)
  Revision := data.getD 52 0
  Unused := (data.drop 53).take 3

/-- The block-map loop of `NewFirmwareVolume`: repeatedly `binary.Read` an
8-byte `Block`; a `(0,0)` record terminates the list (and is not appended);
running out of bytes before the terminator is the `binary.Read` EOF error,
modelled as `truncatedData`. -/
def readBlocks : List Nat → Except GoErr (List Block)
  | c0 :: c1 :: c2 :: c3 :: s0 :: s1 :: s2 :: s3 :: rest =>
    let c := readU32 c0 c1 c2 c3
    let s := readU32 s0 s1 s2 s3
    if c = 0 ∧ s = 0 then .ok []
    else
      match readBlocks rest with
      | .error e => .error e
      | .ok bs => .ok (⟨c, s⟩ :: bs)
  | _ => .error .truncatedData

/-- Definition following the spec's words (§4.4/§3), for comparison with the
decoder: the block list, read in 8-byte records from the given bytes, reaches
a `(0,0)` terminator before the bytes are exhausted. -/
def blockListTerminates : List Nat → Bool
  | c0 :: c1 :: c2 :: c3 :: s0 :: s1 :: s2 :: s3 :: rest =>
    if readU32 c0 c1 c2 c3 = 0 ∧ readU32 s0 s1 s2 s3 = 0 then true
    else blockListTerminates rest
  | _ => false

/-- `NewFirmwareVolume` from `flash.go`: requires at least
`FirmwareVolumeMinSize` (64) bytes, decodes the 56-byte fixed header, then
the terminated block list starting at byte 56. -/
def NewFirmwareVolume (data : List Nat) : Except GoErr FirmwareVolume :=
  if data.length < FirmwareVolumeMinSize then .error .imageTooSmall
  else
    match readBlocks (data.drop 56) with
    | .error e => .error e
    | .ok bs => .ok { decodeFVHeader data with Blocks := bs }

/-- `BiosRegion` from `biosregion.go`: the firmware volumes discovered in the
BIOS region, in file order. -/
structure BiosRegion where
  FirmwareVolumes : List FirmwareVolume
deriving DecidableEq

/-- The discovery loop of `NewBiosRegion`, with an explicit fuel parameter
because the Go loop need not terminate (`none` = the loop is still running
after `fuel` iterations).  Each iteration scans for a firmware volume
signature (`-1` ends the loop successfully), decodes a volume at the found
offset — a negative offset makes the Go slice `data[offset:]` panic — and
re-slices `data` past `offset + volume.Length`, which panics when that index
exceeds the remaining length. -/
def NewBiosRegionLoop : Nat → List Nat → List FirmwareVolume →
    Option (Except GoErr BiosRegion)
  | 0, _, _ => none
  | fuel + 1, data, acc =>
    match FindFirmwareVolumeOffset data with
    | .error _ => some (.error .oob)
    | .ok off =>
      if off = -1 then some (.ok ⟨acc⟩)
      else if off < 0 then some (.error .oob)
      else
        match NewFirmwareVolume (data.drop off.toNat) with
        | .error e => some (.error e)
        | .ok fv =>
          if off.toNat + fv.Length ≤ data.length then
            NewBiosRegionLoop fuel (data.drop (off.toNat + fv.Length)) (acc ++ [fv])
          else some (.error .oob)

/-- `NewBiosRegion` from `biosregion.go`, in the fuel model. -/
def NewBiosRegion (fuel : Nat) (data : List Nat) : Option (Except GoErr BiosRegion) :=
  NewBiosRegionLoop fuel data []

/-- `FlashRegionSectionSize` from `flashregionsection.go`: the size of the
Region descriptor window. -/
def FlashRegionSectionSize : Nat := 36

/-- `FlashRegionSection` from `flashregionsection.go`: ten little-endian
`uint16` fields (20 bytes) read from the start of the 36-byte window. -/
structure FlashRegionSection where
  Reserved : Nat
  FlashBlockEraseSize : Nat
  BiosBase : Nat
  BiosLimit : Nat
  MeBase : Nat
  MeLimit : Nat
  GbeBase : Nat
  GbeLimit : Nat
  PdrBase : Nat
  PdrLimit : Nat
deriving DecidableEq

/-- `NewFlashRegionSection`: requires at least 36 bytes, then `binary.Read`
fills the ten `uint16` fields from the first 20 bytes. -/
def NewFlashRegionSection (data : List Nat) : Except GoErr FlashRegionSection :=
  if data.length < FlashRegionSectionSize then .error .imageTooSmall
  else .ok {
    Reserved := readU16 data
    FlashBlockEraseSize := readU16 (data.drop 2)
    BiosBase := readU16 (data.drop 4)
    BiosLimit := readU16 (data.drop 6)
    MeBase := readU16 (data.drop 8)
    MeLimit := readU16 (data.drop 10)
    GbeBase := readU16 (data.drop 12)
    GbeLimit := readU16 (data.drop 14)
    PdrBase := readU16 (data.drop 16)
    PdrLimit := readU16 (data.drop 18) }

/-- `FlashMasterSectionSize` from the master-section source file. -/
def FlashMasterSectionSize : Nat := 12

/-- `FlashMasterSection`: for each of the three masters (BIOS, ME, GbE) a
16-bit identifier and 8-bit read/write permission masks. -/
structure FlashMasterSection where
  BiosID : Nat
  BiosRead : Nat
  BiosWrite : Nat
  MeID : Nat
  MeRead : Nat
  MeWrite : Nat
  GbeID : Nat
  GbeRead : Nat
  GbeWrite : Nat
deriving DecidableEq

/-- `NewFlashMasterSection`: requires at least 12 bytes (else its ad-hoc
size error), then `binary.Read` fills the fields little-endian. -/
def NewFlashMasterSection (buf : List Nat) : Except GoErr FlashMasterSection :=
  if buf.length < FlashMasterSectionSize then .error .masterSectionTooSmall
  else .ok {
    BiosID := readU16 buf
    BiosRead := buf.getD 2 0
    BiosWrite := buf.getD 3 0
    MeID := readU16 (buf.drop 4)
    MeRead := buf.getD 6 0
    MeWrite := buf.getD 7 0
    GbeID := readU16 (buf.drop 8)
    GbeRead := buf.getD 10 0
    GbeWrite := buf.getD 11 0 }

/-- Little-endian 16-bit write: the two bytes of `v mod 2^16`. -/
def encodeU16 (v : Nat) : List Nat := [v % 256, v / 256 % 256]

/-- Little-endian 32-bit write: the four bytes of `v mod 2^32`. -/
def encodeU32 (v : Nat) : List Nat :=
  [v % 256, v / 256 % 256, v / 65536 % 256, v / 16777216 % 256]

/-- The 8-byte wire form of a `Block` record (u32 count, u32 size,
little-endian). -/
def encodeBlock (b : Block) : List Nat := encodeU32 b.Count ++ encodeU32 b.Size

/-- Modelled from the spec: the repository has no encoder, so re-encoding a
decoded `FlashRegionSection` (spec §8 round trip) is modelled as writing its
ten `uint16` fields little-endian in declared order (spec §6). -/
def encodeRegionSection (r : FlashRegionSection) : List Nat :=
  encodeU16 r.Reserved ++ encodeU16 r.FlashBlockEraseSize ++
  encodeU16 r.BiosBase ++ encodeU16 r.BiosLimit ++
  encodeU16 r.MeBase ++ encodeU16 r.MeLimit ++
  encodeU16 r.GbeBase ++ encodeU16 r.GbeLimit ++
  encodeU16 r.PdrBase ++ encodeU16 r.PdrLimit

/-- Modelled from the spec: re-encoding a decoded `FlashMasterSection`
(spec §8 round trip) as its 12-byte wire form, fields in declared order
(spec §6). -/
def encodeMasterSection (m : FlashMasterSection) : List Nat :=
  encodeU16 m.BiosID ++ [m.BiosRead % 256, m.BiosWrite % 256] ++
  encodeU16 m.MeID ++ [m.MeRead % 256, m.MeWrite % 256] ++
  encodeU16 m.GbeID ++ [m.GbeRead % 256, m.GbeWrite % 256]

/-- Modelled from the spec: re-encoding a decoded `FlashParams` record.  The
decoder keeps the raw 4 bytes, so the wire form is the record itself. -/
def encodeFlashParams (p : FlashParams) : List Nat := p

/-- Modelled from the spec: `FlashDescriptorMapSize` is referenced but its
value is an externally specified constant not enumerated in the available
material (spec §6, §9); it must exceed 10 (spec §8: a 10-byte buffer fails
with `ImageTooSmall`).  Modelled as 16 bytes. -/
def FlashDescriptorMapSize : Nat := 16

/-- Modelled from the spec: the Descriptor Map record "contains at least
`RegionBase` and `MasterBase` 8-bit or larger block-index fields" (spec §6);
the full layout is an open question (spec §9).  Only the two block-index
fields are modelled. -/
structure FlashDescriptorMap where
  RegionBase : Nat
  MasterBase : Nat
deriving DecidableEq

/-- Modelled from the spec: the Descriptor Map decoder is a fixed-record
decode of a `FlashDescriptorMapSize`-byte window (spec §4.2); `RegionBase`
and `MasterBase` are modelled as the bytes at offsets 2 and 4 of the
window. -/
def NewFlashDescriptorMap (data : List Nat) : Except GoErr FlashDescriptorMap :=
  if data.length < FlashDescriptorMapSize then .error .imageTooSmall
  else .ok { RegionBase := data.getD 2 0, MasterBase := data.getD 4 0 }

/-- `FlashImage` from `flash.go`: the raw buffer, the three section offsets,
and the three decoded sections. -/
structure FlashImage where
  buf : List Nat
  DescriptorMapStart : Nat
  RegionStart : Nat
  MasterStart : Nat
  DescriptorMap : FlashDescriptorMap
  Region : FlashRegionSection
  Master : FlashMasterSection
deriving DecidableEq

/-- `NewFlashImage` from `flash.go`: size check against the descriptor-map
size, signature search, then the three section decodes at
`DescriptorMapStart`, `RegionBase * 0x10` and `MasterBase * 0x10`.  Each Go
subslice `buf[a : a+size]` panics when `a + size` exceeds the buffer length;
those panics are modelled as `GoErr.oob`. -/
def NewFlashImage (buf : List Nat) : Except GoErr FlashImage :=
  if buf.length < FlashDescriptorMapSize then .error .imageTooSmall
  else
    match FindSignature buf with
    | .error _ => .error .oob
    | .ok dms =>
      if dms < 0 then .error .flashSignatureNotFound
      else
        if dms.toNat + FlashDescriptorMapSize ≤ buf.length then
          match NewFlashDescriptorMap ((buf.drop dms.toNat).take FlashDescriptorMapSize) with
          | .error e => .error e
          | .ok desc =>
            if desc.RegionBase * 0x10 + FlashRegionSectionSize ≤ buf.length then
              match NewFlashRegionSection
                  ((buf.drop (desc.RegionBase * 0x10)).take FlashRegionSectionSize) with
              | .error e => .error e
              | .ok region =>
                if desc.MasterBase * 0x10 + FlashMasterSectionSize ≤ buf.length then
                  match NewFlashMasterSection
                      ((buf.drop (desc.MasterBase * 0x10)).take FlashMasterSectionSize) with
                  | .error e => .error e
                  | .ok master =>
                    .ok ⟨buf, dms.toNat, desc.RegionBase * 0x10, desc.MasterBase * 0x10,
                      desc, region, master⟩
                else .error .oob
            else .error .oob
        else .error .oob

/-! ## Helper lemmas -/

/-- Single-byte identity: masking with `0x0f` is reduction mod 16. -/
lemma byte_low_nibble : ∀ b < 256, b &&& 0x0f = b % 16 := by decide

/-- Single-byte identity: `(b >> 4) & 0x0f` extracts bits 4–7. -/
lemma byte_high_nibble : ∀ b < 256, (b >>> 4) &&& 0x0f = b / 16 % 16 := by decide

/-- Single-byte identity: `(b >> 1) & 0x07` extracts bits 1–3. -/
lemma byte_bits_1_3 : ∀ b < 256, (b >>> 1) &&& 0x07 = b / 2 % 8 := by decide

/-- Single-byte identity: `(b >> 4) & 0x01` extracts bit 4. -/
lemma byte_bit_4 : ∀ b < 256, (b >>> 4) &&& 0x01 = b / 16 % 2 := by decide

/-- Single-byte identity: `(b >> 5) & 0x07` extracts bits 5–7. -/
lemma byte_bits_5_7 : ∀ b < 256, (b >>> 5) &&& 0x07 = b / 32 % 8 := by decide

/-- Single-byte identity: masking with `0x07` is reduction mod 8. -/
lemma byte_bits_0_2 : ∀ b < 256, b &&& 0x07 = b % 8 := by decide

/-- Single-byte identity: `(b >> 3) & 0x07` extracts bits 3–5. -/
lemma byte_bits_3_5 : ∀ b < 256, (b >>> 3) &&& 0x07 = b / 8 % 8 := by decide

/-- Single-byte identity: `b >> 7` extracts bit 7 of a byte. -/
lemma byte_bit_7 : ∀ b < 256, b >>> 7 = b / 128 % 2 := by decide

/-! ## C8: FlashParams bit-field extraction -/

/-- C8.  Each `FlashParams` accessor extracts exactly the byte and bit range
of the spec's §4.3 table (expressed arithmetically: bits `i..j` of byte `b`
are `b / 2^i % 2^(j-i+1)`), and any 4-byte input whose bits 1–3 of byte 2
encode the unmapped frequency value 3 decodes without failure, with the raw
value 3 retrievable. -/
theorem flashParams_bit_layout (b0 b1 b2 b3 : Nat)
    (h0 : b0 < 256) (h2 : b2 < 256) (h3 : b3 < 256) :
    FirstChipDensity [b0, b1, b2, b3] = b0 % 16 ∧
    SecondChipDensity [b0, b1, b2, b3] = b0 / 16 % 16 ∧
    ReadClockFrequency [b0, b1, b2, b3] = b2 / 2 % 8 ∧
    FastReadEnabled [b0, b1, b2, b3] = b2 / 16 % 2 ∧
    FastReadFrequency [b0, b1, b2, b3] = b2 / 32 % 8 ∧
    FlashWriteFrequency [b0, b1, b2, b3] = b3 % 8 ∧
    FlashReadStatusFrequency [b0, b1, b2, b3] = b3 / 8 % 8 ∧
    DualOutputFastReadSupported [b0, b1, b2, b3] = b3 / 128 % 2 ∧
    (b2 / 2 % 8 = 3 →
      NewFlashParams [b0, b1, b2, b3] = .ok [b0, b1, b2, b3] ∧
      ReadClockFrequency [b0, b1, b2, b3] = 3) :=
  have g0 : ([b0, b1, b2, b3] : List Nat).getD 0 0 = b0 := rfl
  have g2 : ([b0, b1, b2, b3] : List Nat).getD 2 0 = b2 := rfl
  have g3 : ([b0, b1, b2, b3] : List Nat).getD 3 0 = b3 := rfl
  ⟨by rw [FirstChipDensity, g0]; exact byte_low_nibble b0 h0,
   by rw [SecondChipDensity, g0]; exact byte_high_nibble b0 h0,
   by rw [ReadClockFrequency, g2]; exact byte_bits_1_3 b2 h2,
   by rw [FastReadEnabled, g2]; exact byte_bit_4 b2 h2,
   by rw [FastReadFrequency, g2]; exact byte_bits_5_7 b2 h2,
   by rw [FlashWriteFrequency, g3]; exact byte_bits_0_2 b3 h3,
   by rw [FlashReadStatusFrequency, g3]; exact byte_bits_3_5 b3 h3,
   by rw [DualOutputFastReadSupported, g3]; exact byte_bit_7 b3 h3,
   fun hraw =>
     ⟨by rw [NewFlashParams]; rfl,
      by rw [ReadClockFrequency, g2, byte_bits_1_3 b2 h2]; exact hraw⟩⟩

/-- C8 witness: the accessors evaluated on the concrete record
`[0x12, 0, 6, 0]`, whose byte 2 encodes the unmapped frequency value 3. -/
theorem flashParams_bit_layout_witness :
    FirstChipDensity [0x12, 0, 6, 0] = 2 ∧
    SecondChipDensity [0x12, 0, 6, 0] = 1 ∧
    NewFlashParams [0x12, 0, 6, 0] = .ok [0x12, 0, 6, 0] ∧
    ReadClockFrequency [0x12, 0, 6, 0] = 3 := by
  have h := flashParams_bit_layout 0x12 0 6 0 (by decide) (by decide) (by decide)
  exact ⟨h.1, h.2.1, (h.2.2.2.2.2.2.2.2 (by decide)).1, (h.2.2.2.2.2.2.2.2 (by decide)).2⟩

/-! ## C7: descriptor-signature location -/

/-- C7 counterexample: a 4-byte buffer holding the flash signature only at
offset 0.  The claim says `FindSignature` returns 4; the code first slices
`buf[16:20]`, which is out of bounds for this buffer, so it panics instead of
returning anything. -/
theorem findSignature_short_buffer_counterexample :
    FindSignature [0x5a, 0xa5, 0xf0, 0x0f] = .error .oob ∧
    FindSignature [0x5a, 0xa5, 0xf0, 0x0f] ≠ .ok 4 := by decide

/-- C7 amended.  For buffers of at least 20 bytes (so the offset-16 window
exists), `FindSignature` returns 20 when the flash signature is at offset 16
(PCH check first), otherwise 4 when it is at offset 0, otherwise `-1`. -/
theorem findSignature_precedence (buf : List Nat) (h20 : 20 ≤ buf.length) :
    ((buf.drop 16).take 4 = FlashSignature → FindSignature buf = .ok 20) ∧
    ((buf.drop 16).take 4 ≠ FlashSignature → buf.take 4 = FlashSignature →
      FindSignature buf = .ok 4) ∧
    ((buf.drop 16).take 4 ≠ FlashSignature → buf.take 4 ≠ FlashSignature →
      FindSignature buf = .ok (-1)) := by
  have hno : ¬ buf.length < 20 := by omega
  refine ⟨fun hp => ?_, fun hp hl => ?_, fun hp hl => ?_⟩
  · simp [FindSignature, hno, hp]
  · simp [FindSignature, hno, hp, hl]
  · simp [FindSignature, hno, hp, hl]

/-- C7 witness: all three branches exercised on concrete 20-byte buffers. -/
theorem findSignature_precedence_witness :
    FindSignature (List.replicate 16 0 ++ [0x5a, 0xa5, 0xf0, 0x0f]) = .ok 20 ∧
    FindSignature ([0x5a, 0xa5, 0xf0, 0x0f] ++ List.replicate 16 0) = .ok 4 ∧
    FindSignature (List.replicate 20 0) = .ok (-1) :=
  ⟨(findSignature_precedence _ (by decide)).1 (by decide),
   (findSignature_precedence _ (by decide)).2.1 (by decide) (by decide),
   (findSignature_precedence _ (by decide)).2.2 (by decide) (by decide)⟩

/-! ## C9: record round trips -/

/-- C9 counterexample: decoding the 36-byte all-zero Region window succeeds,
but re-encoding the decoded record does not reproduce the original 36 bytes —
the decoder keeps only the ten `uint16` fields (20 bytes) and discards bytes
20–35, so the re-encoded form is 20 bytes long. -/
theorem regionSection_roundtrip_counterexample :
    ∃ r, NewFlashRegionSection (List.replicate 36 0) = .ok r ∧
      encodeRegionSection r ≠ List.replicate 36 0 :=
  ⟨_, rfl, by decide⟩

/-- C9 amended.  Master (12-byte) and Params (4-byte) records decode-then-
re-encode to exactly the original bytes; a Region record decode retains only
the first 20 of the 36 window bytes (its ten `uint16` fields), so re-encoding
reproduces exactly those first 20 bytes, not the full 36-byte input. -/
theorem record_roundtrip_amended :
    (∀ b0 b1 b2 b3 b4 b5 b6 b7 b8 b9 b10 b11 b12 b13 b14 b15 b16 b17 b18 b19
      b20 b21 b22 b23 b24 b25 b26 b27 b28 b29 b30 b31 b32 b33 b34 b35 : Nat,
      b0 < 256 → b1 < 256 → b2 < 256 → b3 < 256 → b4 < 256 → b5 < 256 →
      b6 < 256 → b7 < 256 → b8 < 256 → b9 < 256 → b10 < 256 → b11 < 256 →
      b12 < 256 → b13 < 256 → b14 < 256 → b15 < 256 → b16 < 256 → b17 < 256 →
      b18 < 256 → b19 < 256 →
      ∃ r, NewFlashRegionSection [b0, b1, b2, b3, b4, b5, b6, b7, b8, b9, b10,
          b11, b12, b13, b14, b15, b16, b17, b18, b19, b20, b21, b22, b23, b24,
          b25, b26, b27, b28, b29, b30, b31, b32, b33, b34, b35] = .ok r ∧
        encodeRegionSection r = [b0, b1, b2, b3, b4, b5, b6, b7, b8, b9, b10,
          b11, b12, b13, b14, b15, b16, b17, b18, b19]) ∧
    (∀ m0 m1 m2 m3 m4 m5 m6 m7 m8 m9 m10 m11 : Nat,
      m0 < 256 → m1 < 256 → m2 < 256 → m3 < 256 → m4 < 256 → m5 < 256 →
      m6 < 256 → m7 < 256 → m8 < 256 → m9 < 256 → m10 < 256 → m11 < 256 →
      ∃ m, NewFlashMasterSection [m0, m1, m2, m3, m4, m5, m6, m7, m8, m9, m10,
          m11] = .ok m ∧
        encodeMasterSection m = [m0, m1, m2, m3, m4, m5, m6, m7, m8, m9, m10,
          m11]) ∧
    (∀ p0 p1 p2 p3 : Nat,
      ∃ p, NewFlashParams [p0, p1, p2, p3] = .ok p ∧
        encodeFlashParams p = [p0, p1, p2, p3]) := by
  refine ⟨?_, ?_, ?_⟩
  · intro b0 b1 b2 b3 b4 b5 b6 b7 b8 b9 b10 b11 b12 b13 b14 b15 b16 b17 b18 b19
      b20 b21 b22 b23 b24 b25 b26 b27 b28 b29 b30 b31 b32 b33 b34 b35
      h0 h1 h2 h3 h4 h5 h6 h7 h8 h9 h10 h11 h12 h13 h14 h15 h16 h17 h18 h19
    refine ⟨_, rfl, ?_⟩
    simp only [encodeRegionSection, encodeU16, readU16, List.getD_cons_zero,
      List.getD_cons_succ, List.drop_succ_cons, List.drop_zero, List.cons_append,
      List.nil_append, List.cons.injEq, and_true]
    omega
  · intro m0 m1 m2 m3 m4 m5 m6 m7 m8 m9 m10 m11
      h0 h1 h2 h3 h4 h5 h6 h7 h8 h9 h10 h11
    refine ⟨_, rfl, ?_⟩
    simp only [encodeMasterSection, encodeU16, readU16, List.getD_cons_zero,
      List.getD_cons_succ, List.drop_succ_cons, List.drop_zero, List.cons_append,
      List.nil_append, List.cons.injEq, and_true]
    omega
  · intro p0 p1 p2 p3
    exact ⟨_, rfl, rfl⟩

/-- C9 witness: the three round trips evaluated on concrete records with
distinct byte values. -/
theorem record_roundtrip_amended_witness :
    (∃ r, NewFlashRegionSection [10, 11, 12, 13, 14, 15, 16, 17, 18, 19, 20, 21,
        22, 23, 24, 25, 26, 27, 28, 29, 30, 31, 32, 33, 34, 35, 36, 37, 38, 39,
        40, 41, 42, 43, 44, 45] = .ok r ∧
      encodeRegionSection r = [10, 11, 12, 13, 14, 15, 16, 17, 18, 19, 20, 21,
        22, 23, 24, 25, 26, 27, 28, 29]) ∧
    (∃ m, NewFlashMasterSection [50, 51, 52, 53, 54, 55, 56, 57, 58, 59, 60, 61]
        = .ok m ∧
      encodeMasterSection m = [50, 51, 52, 53, 54, 55, 56, 57, 58, 59, 60, 61]) ∧
    (∃ p, NewFlashParams [1, 2, 3, 4] = .ok p ∧
      encodeFlashParams p = [1, 2, 3, 4]) :=
  ⟨record_roundtrip_amended.1 10 11 12 13 14 15 16 17 18 19 20 21 22 23 24 25 26
      27 28 29 30 31 32 33 34 35 36 37 38 39 40 41 42 43 44 45
      (by decide) (by decide) (by decide) (by decide) (by decide) (by decide)
      (by decide) (by decide) (by decide) (by decide) (by decide) (by decide)
      (by decide) (by decide) (by decide) (by decide) (by decide) (by decide)
      (by decide) (by decide),
   record_roundtrip_amended.2.1 50 51 52 53 54 55 56 57 58 59 60 61
      (by decide) (by decide) (by decide) (by decide) (by decide) (by decide)
      (by decide) (by decide) (by decide) (by decide) (by decide) (by decide),
   record_roundtrip_amended.2.2 1 2 3 4⟩

/-! ## C5 / C10: block-list decoding -/

/-- Little-endian 32-bit decode inverts the byte split. -/
lemma readU32_encode (v : Nat) (hv : v < 4294967296) :
    readU32 (v % 256) (v / 256 % 256) (v / 65536 % 256) (v / 16777216 % 256) = v := by
  simp only [readU32]; omega

/-- One non-terminator block record at the head of the block area decodes to
itself, followed by whatever the remaining bytes decode to. -/
lemma readBlocks_encodeBlock_cons (b : Block) (rest : List Nat)
    (hc : b.Count < 4294967296) (hs : b.Size < 4294967296)
    (ht : ¬(b.Count = 0 ∧ b.Size = 0)) :
    readBlocks (encodeBlock b ++ rest) = (readBlocks rest).map (b :: ·) := by
  obtain ⟨c, s⟩ := b
  simp only [encodeBlock, encodeU32, List.cons_append, List.nil_append] at *
  rw [readBlocks]
  rw [readU32_encode c hc, readU32_encode s hs]
  rw [if_neg ht]
  cases hr : readBlocks rest <;> simp [hr, Except.map]

/-- The all-zero 8-byte record is the block-list terminator. -/
lemma readBlocks_terminator : readBlocks (encodeBlock ⟨0, 0⟩) = .ok [] := by decide

/-- C5.  A 56-byte fixed header followed by three non-terminator block
records and a `(0,0)` terminator decodes to a volume whose `Blocks` sequence
is exactly those three blocks in input order (terminator excluded); the same
stream without the terminator fails with the truncated-data error instead of
silently stopping. -/
theorem newFirmwareVolume_block_list (h : List Nat) (b1 b2 b3 : Block)
    (hh : h.length = 56)
    (hc1 : b1.Count < 4294967296) (hs1 : b1.Size < 4294967296)
    (hc2 : b2.Count < 4294967296) (hs2 : b2.Size < 4294967296)
    (hc3 : b3.Count < 4294967296) (hs3 : b3.Size < 4294967296)
    (ht1 : ¬(b1.Count = 0 ∧ b1.Size = 0))
    (ht2 : ¬(b2.Count = 0 ∧ b2.Size = 0))
    (ht3 : ¬(b3.Count = 0 ∧ b3.Size = 0)) :
    (∃ fv, NewFirmwareVolume (h ++ (encodeBlock b1 ++ encodeBlock b2 ++
        encodeBlock b3 ++ encodeBlock ⟨0, 0⟩)) = .ok fv ∧
      fv.Blocks = [b1, b2, b3]) ∧
    NewFirmwareVolume (h ++ (encodeBlock b1 ++ encodeBlock b2 ++ encodeBlock b3)) =
      .error .truncatedData := by
  have hlen8 : ∀ b : Block, (encodeBlock b).length = 8 := fun b => rfl
  constructor
  · have hlen : (h ++ (encodeBlock b1 ++ encodeBlock b2 ++ encodeBlock b3 ++
        encodeBlock ⟨0, 0⟩)).length = 88 := by
      simp [hh, hlen8]
    rw [NewFirmwareVolume, hlen, if_neg (by rw [FirmwareVolumeMinSize, FirmwareVolumeFixedHeaderSize]; omega),
      List.drop_left' hh, List.append_assoc, List.append_assoc,
      readBlocks_encodeBlock_cons b1 _ hc1 hs1 ht1,
      readBlocks_encodeBlock_cons b2 _ hc2 hs2 ht2,
      readBlocks_encodeBlock_cons b3 _ hc3 hs3 ht3,
      readBlocks_terminator]
    exact ⟨_, rfl, rfl⟩
  · have hlen : (h ++ (encodeBlock b1 ++ encodeBlock b2 ++ encodeBlock b3)).length
        = 80 := by
      simp [hh, hlen8]
    rw [NewFirmwareVolume, hlen, if_neg (by rw [FirmwareVolumeMinSize, FirmwareVolumeFixedHeaderSize]; omega),
      List.drop_left' hh, List.append_assoc,
      readBlocks_encodeBlock_cons b1 _ hc1 hs1 ht1,
      readBlocks_encodeBlock_cons b2 _ hc2 hs2 ht2,
      ← List.append_nil (encodeBlock b3),
      readBlocks_encodeBlock_cons b3 _ hc3 hs3 ht3]
    rfl

/-- C5 witness: the two decodes evaluated on a concrete stream with header
bytes all zero and blocks `(1,2), (3,4), (5,6)`. -/
theorem newFirmwareVolume_block_list_witness :
    (∃ fv, NewFirmwareVolume (List.replicate 56 0 ++ (encodeBlock ⟨1, 2⟩ ++
        encodeBlock ⟨3, 4⟩ ++ encodeBlock ⟨5, 6⟩ ++ encodeBlock ⟨0, 0⟩)) = .ok fv ∧
      fv.Blocks = [⟨1, 2⟩, ⟨3, 4⟩, ⟨5, 6⟩]) ∧
    NewFirmwareVolume (List.replicate 56 0 ++ (encodeBlock ⟨1, 2⟩ ++
        encodeBlock ⟨3, 4⟩ ++ encodeBlock ⟨5, 6⟩)) = .error .truncatedData :=
  newFirmwareVolume_block_list (List.replicate 56 0) ⟨1, 2⟩ ⟨3, 4⟩ ⟨5, 6⟩
    (by decide) (by decide) (by decide) (by decide) (by decide) (by decide)
    (by decide) (by decide) (by decide) (by decide)

/-- The block-list decode succeeds exactly when the block area reaches a
`(0,0)` terminator before running out of bytes. -/
lemma readBlocks_error_iff (l : List Nat) :
    (∃ e, readBlocks l = .error e) ↔ blockListTerminates l = false := by
  induction l using blockListTerminates.induct with
  | case1 c0 c1 c2 c3 s0 s1 s2 s3 rest hcond =>
    rw [readBlocks, if_pos hcond, blockListTerminates, if_pos hcond]
    simp
  | case2 c0 c1 c2 c3 s0 s1 s2 s3 rest hcond ih =>
    rw [readBlocks, if_neg hcond, blockListTerminates, if_neg hcond, ← ih]
    cases hr : readBlocks rest <;> simp [hr]
  | case3 l hshape =>
    have hrb : readBlocks l = .error .truncatedData := by
      rw [readBlocks.eq_def]
      split
      · rename_i c0 c1 c2 c3 s0 s1 s2 s3 rest
        exact absurd rfl (by intro hc; exact (hshape c0 c1 c2 c3 s0 s1 s2 s3 rest hc).elim)
      · rfl
    have hbt : blockListTerminates l = false := by
      rw [blockListTerminates.eq_def]
      split
      · rename_i c0 c1 c2 c3 s0 s1 s2 s3 rest
        exact absurd rfl (by intro hc; exact (hshape c0 c1 c2 c3 s0 s1 s2 s3 rest hc).elim)
      · rfl
    simp [hrb, hbt]

/-- The error-or-success outcome of `NewFirmwareVolume`, characterized. -/
lemma nfv_error_iff (data : List Nat) :
    (∃ e, NewFirmwareVolume data = .error e) ↔
      data.length < 64 ∨ blockListTerminates (data.drop 56) = false := by
  by_cases hlen : data.length < 64
  · rw [NewFirmwareVolume, if_pos (by rw [FirmwareVolumeMinSize, FirmwareVolumeFixedHeaderSize]; omega)]
    simp [hlen]
  · rw [NewFirmwareVolume, if_neg (by rw [FirmwareVolumeMinSize, FirmwareVolumeFixedHeaderSize]; omega)]
    rw [← readBlocks_error_iff]
    cases hr : readBlocks (data.drop 56) <;> simp [hr, hlen]

/-- C10.  `NewFirmwareVolume` fails exactly when the input is shorter than 64
bytes or the block list runs out of bytes before a `(0,0)` terminator; the
contents of the fixed header never decide success (the right-hand side
depends only on the length and on the bytes from offset 56 on), so replacing
the 56 header bytes never changes whether decoding fails — in particular the
`Signature`, `Zeros` and `Length` fields are not checked. -/
theorem newFirmwareVolume_error_conditions :
    (∀ data : List Nat,
      (∃ e, NewFirmwareVolume data = .error e) ↔
        data.length < 64 ∨ blockListTerminates (data.drop 56) = false) ∧
    (∀ hd1 hd2 rest : List Nat, hd1.length = 56 → hd2.length = 56 →
      ((∃ e, NewFirmwareVolume (hd1 ++ rest) = .error e) ↔
        (∃ e, NewFirmwareVolume (hd2 ++ rest) = .error e))) := by
  refine ⟨nfv_error_iff, fun hd1 hd2 rest e1 e2 => ?_⟩
  rw [nfv_error_iff, nfv_error_iff, List.drop_left' e1, List.drop_left' e2,
    List.length_append, List.length_append, e1, e2]

/-- C10 witness: two 64-byte inputs differing only in their 56 header bytes
(all-zero vs all-0x5F, the latter a nonzero `Zeros` field and an invalid
`Signature`) fail or succeed together. -/
theorem newFirmwareVolume_error_conditions_witness :
    (∃ e, NewFirmwareVolume (List.replicate 56 0 ++ List.replicate 8 0) = .error e) ↔
      (∃ e, NewFirmwareVolume (List.replicate 56 0x5f ++ List.replicate 8 0) = .error e) :=
  newFirmwareVolume_error_conditions.2 _ _ _ (by simp) (by simp)

/-! ## C4: FlashImage offset invariants -/

/-- C4.  Whenever `NewFlashImage` succeeds, the region-table offset is
`RegionBase * 16` and the master-table offset is `MasterBase * 16` as decoded
from the descriptor map, and each of the three section offsets plus its
section's fixed size fits inside the buffer.  (In Go, an out-of-range section
subslice panics rather than succeeding, so success implies the bounds.) -/
theorem newFlashImage_offset_invariants (buf : List Nat) (f : FlashImage)
    (h : NewFlashImage buf = .ok f) :
    f.RegionStart = f.DescriptorMap.RegionBase * 16 ∧
    f.RegionStart + FlashRegionSectionSize ≤ buf.length ∧
    f.MasterStart = f.DescriptorMap.MasterBase * 16 ∧
    f.MasterStart + FlashMasterSectionSize ≤ buf.length ∧
    f.DescriptorMapStart + FlashDescriptorMapSize ≤ buf.length := by
  rw [NewFlashImage] at h
  repeat' split at h
  any_goals exact Except.noConfusion h
  injection h with h
  subst h
  refine ⟨rfl, ?_, rfl, ?_, ?_⟩ <;> dsimp only <;> omega

/-- Concrete 128-byte flash image: PCH signature at offset 16, descriptor map
at 20 with `RegionBase = 4` (byte 22) and `MasterBase = 7` (byte 24). -/
def c4Buffer : List Nat :=
  List.replicate 16 0 ++ FlashSignature ++ [0, 0, 4, 0, 7, 0] ++ List.replicate 102 0

/-- The decoded image of `c4Buffer`. -/
def c4Image : FlashImage where
  buf := c4Buffer
  DescriptorMapStart := 20
  RegionStart := 64
  MasterStart := 112
  DescriptorMap := ⟨4, 7⟩
  Region := ⟨0, 0, 0, 0, 0, 0, 0, 0, 0, 0⟩
  Master := ⟨0, 0, 0, 0, 0, 0, 0, 0, 0⟩

/-- C4 witness: the invariants evaluated on the concrete image decoded from
`c4Buffer`. -/
theorem newFlashImage_offset_invariants_witness :
    NewFlashImage c4Buffer = .ok c4Image ∧
    (c4Image.RegionStart = c4Image.DescriptorMap.RegionBase * 16 ∧
     c4Image.RegionStart + FlashRegionSectionSize ≤ c4Buffer.length ∧
     c4Image.MasterStart = c4Image.DescriptorMap.MasterBase * 16 ∧
     c4Image.MasterStart + FlashMasterSectionSize ≤ c4Buffer.length ∧
     c4Image.DescriptorMapStart + FlashDescriptorMapSize ≤ c4Buffer.length) :=
  ⟨by decide, newFlashImage_offset_invariants c4Buffer c4Image (by decide)⟩

/-! ## C1: out-of-bounds reads on malformed input -/

/-- A 40-byte buffer, zero except for a firmware volume signature at offset
32; the scanner reports the volume at offset `32 - 40 = -8`. -/
def c1Buffer : List Nat := List.replicate 32 0 ++ fvSignature ++ List.replicate 4 0

/-- C1 (failing evaluation).  Two in-scope decoding operations read out of
bounds instead of reporting through an error or NotFound value: on
`c1Buffer`, the signature scan returns offset `-8` and `NewBiosRegion` then
evaluates the Go slice `data[-8:]`, a runtime panic; and on a 34-byte buffer
the scan itself slices `data[32:36]` past the end, a runtime panic, where the
claim requires NotFound. -/
theorem newBiosRegion_out_of_bounds :
    FindFirmwareVolumeOffset c1Buffer = .ok (-8) ∧
    NewBiosRegion 1 c1Buffer = some (.error .oob) ∧
    FindFirmwareVolumeOffset (List.replicate 34 0) = .error .oob := by decide

/-! ## C3: divergence of the discovery loop -/

/-- A 64-byte buffer holding one syntactically valid firmware volume whose
declared `Length` field is 0: zero `Zeros`/GUID bytes, `Length = 0` at bytes
32–39, the `"_FVH"` signature at 40–43, and an 8-byte terminator block. -/
def c3Buffer : List Nat := List.replicate 40 0 ++ fvSignature ++ List.replicate 20 0

/-- The firmware volume decoded at offset 0 of `c3Buffer`. -/
def c3Volume : FirmwareVolume :=
  { decodeFVHeader c3Buffer with Blocks := [] }

/-- On `c3Buffer` the loop consumes one fuel unit per iteration without
changing `data`: the volume is found at offset 0 with `Length = 0`, so the
cursor advances by `0 + 0 = 0`. -/
lemma c3_loop_stuck : ∀ (n : Nat) (acc : List FirmwareVolume),
    NewBiosRegionLoop n c3Buffer acc = none := by
  intro n
  induction n with
  | zero => intro acc; rfl
  | succ m ih =>
    intro acc
    have hstep : NewBiosRegionLoop (m + 1) c3Buffer acc =
        NewBiosRegionLoop m c3Buffer (acc ++ [c3Volume]) := rfl
    rw [hstep]
    exact ih _

/-- C3 (failing evaluation).  On `c3Buffer` the remaining-bytes cursor does
not increase — the found offset is 0 and the decoded volume's `Length` is 0,
so the scan repeats on identical data — and the discovery loop never
terminates: it exhausts every fuel bound. -/
theorem newBiosRegion_nontermination :
    ∀ fuel, NewBiosRegion fuel c3Buffer = none :=
  fun fuel => c3_loop_stuck fuel []

/-! ## C2: discovery of two consecutive volumes -/

/-- A successful iteration of the discovery loop: volume found at offset 0,
decoded, and the cursor advanced past its declared length. -/
lemma newBiosRegionLoop_step (fuel : Nat) (data : List Nat)
    (acc : List FirmwareVolume) (fv : FirmwareVolume)
    (hfind : FindFirmwareVolumeOffset data = .ok 0)
    (hdec : NewFirmwareVolume data = .ok fv)
    (hlen : fv.Length ≤ data.length) :
    NewBiosRegionLoop (fuel + 1) data acc =
      NewBiosRegionLoop fuel (data.drop fv.Length) (acc ++ [fv]) := by
  rw [NewBiosRegionLoop, hfind]
  simp only [show ¬((0 : Int) = -1) by decide, if_false,
    show ¬((0 : Int) < 0) by decide, Int.toNat_zero, List.drop_zero, hdec,
    Nat.zero_add, if_pos hlen]

/-- A NotFound scan result ends the loop successfully with the volumes
accumulated so far. -/
lemma newBiosRegionLoop_stop (fuel : Nat) (data : List Nat)
    (acc : List FirmwareVolume)
    (hfind : FindFirmwareVolumeOffset data = .ok (-1)) :
    NewBiosRegionLoop (fuel + 1) data acc = some (.ok ⟨acc⟩) := by
  rw [NewBiosRegionLoop, hfind]
  simp

/-- C2.  A BIOS sub-region made of two consecutive valid firmware volumes —
the first decoding to `fv1` with declared length exactly `v1.length`, the
second starting at byte `v1.length` and decoding to `fv2` with declared
length `v2.length`, each found by the signature scan at its own offset 0 —
yields both volumes in file order: the cursor advances past
`found_offset + Length` after each volume and the scan repeats; and a
NotFound scan result terminates the loop successfully, so zero volumes is a
valid result, not an error. -/
theorem newBiosRegion_two_consecutive_volumes
    (v1 v2 : List Nat) (fv1 fv2 : FirmwareVolume)
    (h1 : FindFirmwareVolumeOffset (v1 ++ v2) = .ok 0)
    (h2 : NewFirmwareVolume (v1 ++ v2) = .ok fv1)
    (h3 : fv1.Length = v1.length)
    (h4 : FindFirmwareVolumeOffset v2 = .ok 0)
    (h5 : NewFirmwareVolume v2 = .ok fv2)
    (h6 : fv2.Length = v2.length) :
    (∀ n, NewBiosRegion (n + 3) (v1 ++ v2) = some (.ok ⟨[fv1, fv2]⟩)) ∧
    (∀ data fuel, FindFirmwareVolumeOffset data = .ok (-1) →
      NewBiosRegion (fuel + 1) data = some (.ok ⟨[]⟩)) := by
  constructor
  · intro n
    show NewBiosRegionLoop (n + 1 + 1 + 1) (v1 ++ v2) [] = _
    rw [newBiosRegionLoop_step _ _ _ fv1 h1 h2
        (by rw [h3, List.length_append]; exact Nat.le_add_right _ _),
      h3, List.drop_left, List.nil_append,
      newBiosRegionLoop_step _ _ _ fv2 h4 h5 (le_of_eq h6),
      h6, List.drop_length,
      newBiosRegionLoop_stop _ _ _ (by rfl)]
    rfl
  · intro data fuel hfind
    exact newBiosRegionLoop_stop fuel data [] hfind

/-- A minimal valid 64-byte firmware volume: declared `Length` 64 (bytes
32–39), signature at 40–43, terminator block at 56–63. -/
def c2Bytes : List Nat :=
  List.replicate 32 0 ++ [64, 0, 0, 0, 0, 0, 0, 0] ++ fvSignature ++
    List.replicate 12 0 ++ List.replicate 8 0

/-- The firmware volume decoded from `c2Bytes ++ c2Bytes` at offset 0 (its
56-byte header is that of `c2Bytes` itself). -/
def c2Volume : FirmwareVolume :=
  { decodeFVHeader (c2Bytes ++ c2Bytes) with Blocks := [] }

/-- C2 witness: the two-volume discovery evaluated on the concrete 128-byte
region `c2Bytes ++ c2Bytes`, and the empty result on a signature-free
buffer. -/
theorem newBiosRegion_two_consecutive_volumes_witness :
    NewBiosRegion 3 (c2Bytes ++ c2Bytes) = some (.ok ⟨[c2Volume, c2Volume]⟩) ∧
    NewBiosRegion 1 (List.replicate 20 0) = some (.ok ⟨[]⟩) := by
  have h := newBiosRegion_two_consecutive_volumes c2Bytes c2Bytes c2Volume c2Volume
    (by decide) (by decide) (by decide) (by decide) (by decide) (by decide)
  exact ⟨by simpa using h.1 0, h.2 (List.replicate 20 0) 0 (by decide)⟩

/-! ## C6: firmware-volume signature scan, characterized -/

/-- A 4-byte window that equals the signature lies fully inside the list. -/
lemma length_ge_of_sig {t : List Nat} {n : Nat}
    (h : (t.drop n).take 4 = fvSignature) : n + 4 ≤ t.length := by
  have hl := congrArg List.length h
  simp [fvSignature] at hl
  omega

/-- Scanning an empty tail: the loop condition fails, NotFound. -/
lemma fvScan_nil (off : Nat) : fvScan [] off = .ok (-1) := rfl

/-- A signature match at the current window returns `offset - 40`. -/
lemma fvScan_sig {t : List Nat} (off : Nat) (hs : t.take 4 = fvSignature) :
    fvScan t off = .ok ((off : Int) - 40) := by
  have h4 : 4 ≤ t.length := by
    simpa using length_ge_of_sig (n := 0) (by simpa using hs)
  rcases t with _ | ⟨a, _ | ⟨b, _ | ⟨c, _ | ⟨d, rest⟩⟩⟩⟩
  · simp at h4
  · simp at h4
  · simp at h4
  · simp at h4
  · rcases rest with _ | ⟨e, _ | ⟨f, _ | ⟨g, _ | ⟨k, rest2⟩⟩⟩⟩
    · rw [fvScan.eq_2 off a b c d [] (by simp), if_pos (by simpa using hs)]
    · rw [fvScan.eq_2 off a b c d [e] (by simp), if_pos (by simpa using hs)]
    · rw [fvScan.eq_2 off a b c d [e, f] (by simp), if_pos (by simpa using hs)]
    · rw [fvScan.eq_2 off a b c d [e, f, g] (by simp), if_pos (by simpa using hs)]
    · rw [fvScan.eq_1, if_pos (by simpa using hs)]

/-- A mismatch with at least 8 bytes left advances the scan by 8. -/
lemma fvScan_step {t : List Nat} (off : Nat) (h8 : 8 ≤ t.length)
    (hns : t.take 4 ≠ fvSignature) :
    fvScan t off = fvScan (t.drop 8) (off + 8) := by
  rcases t with _ | ⟨a, _ | ⟨b, _ | ⟨c, _ | ⟨d, _ | ⟨e, _ | ⟨f, _ | ⟨g, _ | ⟨k, rest⟩⟩⟩⟩⟩⟩⟩⟩
  · simp at h8
  · simp at h8
  · simp at h8
  · simp at h8
  · simp at h8
  · simp at h8
  · simp at h8
  · simp at h8
  · rw [fvScan.eq_1, if_neg (by simpa using hns)]
    rfl

/-- A mismatch on a final window of 4–7 bytes ends the scan with NotFound:
the next offset would be past the end of the data. -/
lemma fvScan_last {t : List Nat} (off : Nat) (h4 : 4 ≤ t.length)
    (h8 : t.length < 8) (hns : t.take 4 ≠ fvSignature) :
    fvScan t off = .ok (-1) := by
  rcases t with _ | ⟨a, _ | ⟨b, _ | ⟨c, _ | ⟨d, rest⟩⟩⟩⟩
  · simp at h4
  · simp at h4
  · simp at h4
  · simp at h4
  · rcases rest with _ | ⟨e, _ | ⟨f, _ | ⟨g, _ | ⟨k, rest2⟩⟩⟩⟩
    · rw [fvScan.eq_2 off a b c d [] (by simp), if_neg (by simpa using hns)]
    · rw [fvScan.eq_2 off a b c d [e] (by simp), if_neg (by simpa using hns)]
    · rw [fvScan.eq_2 off a b c d [e, f] (by simp), if_neg (by simpa using hns)]
    · rw [fvScan.eq_2 off a b c d [e, f, g] (by simp), if_neg (by simpa using hns)]
    · simp only [List.length_cons] at h8; omega

/-- A window of 1–3 bytes: the Go slice `data[offset:offset+4]` is out of
bounds. -/
lemma fvScan_oob {t : List Nat} (off : Nat) (h0 : 0 < t.length)
    (h4 : t.length < 4) : fvScan t off = .error .oob := by
  rcases t with _ | ⟨a, _ | ⟨b, _ | ⟨c, _ | ⟨d, rest⟩⟩⟩⟩
  · simp at h0
  · rfl
  · rfl
  · rfl
  · simp only [List.length_cons] at h4; omega

/-- The first matching window (the `k`-th, counting from the scan start)
determines the scan result. -/
lemma fvScan_found (k : Nat) : ∀ (t : List Nat) (off : Nat),
    (t.drop (8 * k)).take 4 = fvSignature →
    (∀ j, j < k → (t.drop (8 * j)).take 4 ≠ fvSignature) →
    fvScan t off = .ok ((off : Int) + 8 * k - 40) := by
  induction k with
  | zero =>
    intro t off hk _
    rw [fvScan_sig off (by simpa using hk)]
    norm_num
  | succ m ih =>
    intro t off hk hj
    have hlen : 8 * (m + 1) + 4 ≤ t.length := length_ge_of_sig hk
    have hns : t.take 4 ≠ fvSignature := by simpa using hj 0 (Nat.succ_pos m)
    have hdrop : ∀ i : Nat, (t.drop 8).drop (8 * i) = t.drop (8 * (i + 1)) := by
      intro i; rw [List.drop_drop]; congr 1; ring
    rw [fvScan_step off (by omega) hns,
      ih (t.drop 8) (off + 8) (by rw [hdrop]; exact hk)
        (fun j hjm => by rw [hdrop]; exact hj (j + 1) (by omega))]
    congr 1; push_cast; ring

/-- When no window matches, the scan returns NotFound if the final window is
fully in bounds (`length % 8 ∉ {1,2,3}`) and goes out of bounds otherwise. -/
lemma fvScan_no_match : ∀ (N : Nat) (t : List Nat) (off : Nat), t.length ≤ N →
    (∀ k, (t.drop (8 * k)).take 4 ≠ fvSignature) →
    fvScan t off =
      if t.length % 8 = 0 ∨ 4 ≤ t.length % 8 then .ok (-1) else .error .oob := by
  intro N
  induction N with
  | zero =>
    intro t off hle _
    have ht : t = [] := List.length_eq_zero.mp (by omega)
    subst ht
    simp [fvScan_nil]
  | succ N ih =>
    intro t off hle hno
    by_cases h0 : t.length = 0
    · have ht : t = [] := List.length_eq_zero.mp h0
      subst ht
      simp [fvScan_nil]
    · by_cases h4 : t.length < 4
      · rw [fvScan_oob off (by omega) h4]
        have hm : t.length % 8 = t.length := Nat.mod_eq_of_lt (by omega)
        rw [if_neg (by omega)]
      · by_cases h8 : t.length < 8
        · rw [fvScan_last off (by omega) h8 (by simpa using hno 0)]
          have hm : t.length % 8 = t.length := Nat.mod_eq_of_lt h8
          rw [if_pos (by omega)]
        · rw [fvScan_step off (by omega) (by simpa using hno 0),
            ih (t.drop 8) (off + 8) (by simp [List.length_drop]; omega)
              (fun k => by
                rw [List.drop_drop, show 8 + 8 * k = 8 * (k + 1) from by ring]
                exact hno (k + 1))]
          simp only [List.length_drop]
          have hm : (t.length - 8) % 8 = t.length % 8 := by omega
          rw [hm]

/-- C6 counterexample: a 34-byte all-zero buffer.  No scanned offset holds
the signature, and the claim says NotFound (`-1`) is returned; instead the
final window `data[32:36]` is out of bounds — a runtime panic, not a
return. -/
theorem findFirmwareVolumeOffset_partial_window_counterexample :
    FindFirmwareVolumeOffset (List.replicate 34 0) = .error .oob ∧
    FindFirmwareVolumeOffset (List.replicate 34 0) ≠ .ok (-1) := by decide

/-- C6 amended.  `FindFirmwareVolumeOffset` returns `-1` for buffers shorter
than 32 bytes; it returns `p - 40` for the first offset `p ∈ {32, 40, 48, …}`
holding `"_FVH"`; and when no scanned offset matches it returns `-1` only if
the last scanned window lies fully within bounds (`length % 8 ∉ {1, 2, 3}`,
which includes every `length ≤ 32`) — otherwise the scan reads out of bounds
instead of returning NotFound. -/
theorem findFirmwareVolumeOffset_characterization (data : List Nat) :
    (data.length < 32 → FindFirmwareVolumeOffset data = .ok (-1)) ∧
    (∀ k, (data.drop (32 + 8 * k)).take 4 = fvSignature →
      (∀ j, j < k → (data.drop (32 + 8 * j)).take 4 ≠ fvSignature) →
      FindFirmwareVolumeOffset data = .ok ((32 + 8 * k : Int) - 40)) ∧
    (32 ≤ data.length →
      (∀ k, (data.drop (32 + 8 * k)).take 4 ≠ fvSignature) →
      FindFirmwareVolumeOffset data =
        if data.length % 8 = 0 ∨ 4 ≤ data.length % 8 then .ok (-1)
        else .error .oob) := by
  have hdd : ∀ i : Nat, (data.drop 32).drop (8 * i) = data.drop (32 + 8 * i) := by
    intro i; rw [List.drop_drop]
  refine ⟨fun h => ?_, fun k hk hj => ?_, fun h32 hno => ?_⟩
  · rw [FindFirmwareVolumeOffset, if_pos h]
  · have hlen : 32 + 8 * k + 4 ≤ data.length := length_ge_of_sig hk
    rw [FindFirmwareVolumeOffset, if_neg (by omega),
      fvScan_found k (data.drop 32) 32 (by rw [hdd]; exact hk)
        (fun j hjk => by rw [hdd]; exact hj j hjk)]
    norm_cast
  · rw [FindFirmwareVolumeOffset, if_neg (by omega),
      fvScan_no_match (data.drop 32).length (data.drop 32) 32 le_rfl
        (fun k => by rw [hdd]; exact hno k)]
    simp only [List.length_drop]
    have hm : (data.length - 32) % 8 = data.length % 8 := by omega
    rw [hm]

/-- C6 witness: the no-match branch on a 40-byte zero buffer (NotFound) and
the first-match branch on a buffer with the signature at offset 32 (returns
`32 - 40 = -8`). -/
theorem findFirmwareVolumeOffset_characterization_witness :
    FindFirmwareVolumeOffset (List.replicate 40 0) = .ok (-1) ∧
    FindFirmwareVolumeOffset
      (List.replicate 32 0 ++ fvSignature ++ List.replicate 4 0) = .ok (-8) := by
  constructor
  · have hno : ∀ k : Nat,
        ((List.replicate 40 0).drop (32 + 8 * k)).take 4 ≠ fvSignature := by
      intro k
      match k with
      | 0 => decide
      | k + 1 =>
        rw [List.drop_eq_nil_of_le (by simp; omega)]
        decide
    have h := (findFirmwareVolumeOffset_characterization (List.replicate 40 0)).2.2
      (by simp) hno
    simpa using h
  · have h := (findFirmwareVolumeOffset_characterization
      (List.replicate 32 0 ++ fvSignature ++ List.replicate 4 0)).2.1 0 (by decide)
      (fun j hj => absurd hj (Nat.not_lt_zero j))
    simpa using h

end Uefi
